import Mathlib

/-
Verification development for the match-record normalization and statistical
aggregation pipeline of `streamlit_app.py` (class EnhancedTeamTacticalPredictor).

The Python source is shallowly embedded:
  * Python dicts used as keyed accumulators become association lists
    (`List (K × V)`) with in-place update (`alSet`) and defaultdict-style
    modification (`alModify`), which preserve Python-dict insertion order
    and key uniqueness.
  * Python numbers are modelled as `Int` / `ℚ` (exact rational arithmetic in
    place of IEEE floats; the claims under study are about which samples enter
    an accumulator, not about float rounding).
  * `dict.get(k, d)` on provider data becomes `Option` fields read with `getD`.
  * Code that can raise returns `Except PyErr _`; the only raising operation
    reachable in the embedded fragment is `None > None` (TypeError) in
    `_extract_team_match_info`.
  * Python builtins `float(str)`, `int(str)`, `round(x, n)`, `str.isdigit` are
    modelled by `pyFloat?`, `pyInt?`, `pyRound`, `pyIsDigitStr`.  The numeric
    parsers cover optional surrounding whitespace, an optional sign, and plain
    decimal forms; exotic accepted forms (exponents, inf/nan, underscore
    separators, non-ASCII digits) are outside the model.  `round` is modelled
    as exact half-even rounding on ℚ.
-/

/-! ### Association lists (Python dict with insertion order) -/

section AList

variable {K : Type} {V : Type} {A : Type} [DecidableEq K]

/-- Python `d[k]` lookup that may miss: first entry with the given key. -/
def alGet? : List (K × V) → K → Option V
  | [], _ => Option.none
  | (k1, v) :: rest, k => if k1 = k then some v else alGet? rest k

/-- Python `d[k] = v`: update the entry in place, or append a new entry. -/
def alSet : List (K × V) → K → V → List (K × V)
  | [], k, v => [(k, v)]
  | (k1, v1) :: rest, k, v => if k1 = k then (k1, v) :: rest else (k1, v1) :: alSet rest k v

/-- Python `defaultdict` access-and-mutate: `f` applied to the stored value,
or to the default `v0` for a fresh key (the fresh entry is appended). -/
def alModify (v0 : V) : List (K × V) → K → (V → V) → List (K × V)
  | [], k, f => [(k, f v0)]
  | (k1, v1) :: rest, k, f =>
      if k1 = k then (k1, f v1) :: rest else (k1, v1) :: alModify v0 rest k f

end AList

/-! ### Python scalar builtins -/

/-- Python error values observable in the embedded fragment. -/
inductive PyErr where
  | typeError
  deriving DecidableEq

/-- Digit value of an ASCII digit character. -/
def digitVal (c : Char) : ℕ := c.toNat - 48

/-- Natural number denoted by a list of ASCII digits. -/
def natOfDigits (cs : List Char) : ℕ := cs.foldl (fun n c => 10 * n + digitVal c) 0

/-- Leading/trailing-whitespace strip, as Python `float`/`int` perform. -/
def trimWs (cs : List Char) : List Char :=
  (((cs.dropWhile Char.isWhitespace).reverse).dropWhile Char.isWhitespace).reverse

/-- Mantissa of a Python float literal: `D+`, `D+.D*` or `.D+`. -/
def parseMantissa? (cs : List Char) : Option ℚ :=
  let intPart := cs.takeWhile (fun c => !(c == '.'))
  let rest := cs.dropWhile (fun c => !(c == '.'))
  match rest with
  | [] =>
      if !intPart.isEmpty && intPart.all Char.isDigit then
        some ((natOfDigits intPart : ℚ))
      else Option.none
  | _ :: fracPart =>
      if intPart.all Char.isDigit && fracPart.all Char.isDigit &&
          !(intPart.isEmpty && fracPart.isEmpty) && !(fracPart.any (fun c => c == '.')) then
        some ((natOfDigits intPart : ℚ) + (natOfDigits fracPart : ℚ) / ((10 : ℚ) ^ fracPart.length))
      else Option.none

/-- Python `float(s)` on a string: `some q` on success, `none` for the
`ValueError` case. -/
def pyFloat? (s : String) : Option ℚ :=
  match trimWs s.toList with
  | [] => Option.none
  | '+' :: rest => parseMantissa? rest
  | '-' :: rest => (parseMantissa? rest).map (fun q => -q)
  | cs => parseMantissa? cs

/-- Python `int(s)` on a string: optional sign and a nonempty digit run. -/
def pyInt? (s : String) : Option ℤ :=
  match trimWs s.toList with
  | [] => Option.none
  | '+' :: rest =>
      if !rest.isEmpty && rest.all Char.isDigit then some ((natOfDigits rest : ℤ))
      else Option.none
  | '-' :: rest =>
      if !rest.isEmpty && rest.all Char.isDigit then some (-(natOfDigits rest : ℤ))
      else Option.none
  | cs => if cs.all Char.isDigit then some ((natOfDigits cs : ℤ)) else Option.none

/-- Python `s.isdigit()` (ASCII digits). -/
def pyIsDigitStr (s : String) : Bool := !s.isEmpty && s.toList.all Char.isDigit

/-- Round to the nearest integer, ties to even (Python `round`). -/
def roundHalfEven (q : ℚ) : ℤ :=
  let f : ℤ := ⌊q⌋
  let r : ℚ := q - (f : ℚ)
  if r < 1 / 2 then f
  else if 1 / 2 < r then f + 1
  else if f % 2 = 0 then f else f + 1

/-- Python `round(q, n)` modelled exactly on rationals. -/
def pyRound (n : ℕ) (q : ℚ) : ℚ :=
  ((roundHalfEven (q * (10 : ℚ) ^ n) : ℤ) : ℚ) / (10 : ℚ) ^ n

/-- `np.mean` of a rational list. -/
def meanQ (l : List ℚ) : ℚ := l.sum / (l.length : ℚ)

/-- `np.mean` of an integer list. -/
def meanI (l : List ℤ) : ℚ := ((l.sum : ℤ) : ℚ) / (l.length : ℚ)

/-- The strictly positive entries of a list of rationals. -/
def posOf (l : List ℚ) : List ℚ := l.filter (fun r => decide (0 < r))

/-- Python `l[-n:]`. -/
def lastN {α : Type} (n : ℕ) (l : List α) : List α := l.drop (l.length - n)

/-! ### `_safe_get`: the dotted-path resolver (claim C6) -/

/-- A JSON-like document value, as traversed by `_safe_get`. -/
inductive JVal where
  | null
  | bool (b : Bool)
  | num (q : ℚ)
  | str (s : String)
  | arr (xs : List JVal)
  | obj (kvs : List (String × JVal))

/-- The loop body of `_safe_get` over the already-split path segments.
Mirrors: dict + key present → descend; list + digit key in range → descend;
otherwise return the default; at the end `current if current is not None
else default`. -/
def safeGetAux : List String → JVal → JVal → JVal
  | [], cur, dflt =>
      match cur with
      | JVal.null => dflt
      | v => v
  | k :: ks, cur, dflt =>
      match cur with
      | JVal.obj kvs =>
          match alGet? kvs k with
          | some v => safeGetAux ks v dflt
          | Option.none => dflt
      | JVal.arr xs =>
          if pyIsDigitStr k then
            let idx := natOfDigits k.toList
            if idx < xs.length then safeGetAux ks (xs.getD idx JVal.null) dflt else dflt
          else dflt
      | _ => dflt

/-- `_safe_get(obj, path, default)`: split the path on dots and traverse. -/
def _safe_get (obj : JVal) (path : String) (dflt : JVal) : JVal :=
  safeGetAux (path.splitOn ".") obj dflt

/-- Reference resolver, written from the specification text of C6: the value
addressed by the path segments (object keys, or digit-string list positions),
`none` when a segment is absent, out of range, or type-mismatched. -/
def resolvePath : JVal → List String → Option JVal
  | cur, [] => some cur
  | cur, k :: ks =>
      match cur with
      | JVal.obj kvs =>
          match alGet? kvs k with
          | some v => resolvePath v ks
          | Option.none => Option.none
      | JVal.arr xs =>
          if pyIsDigitStr k then
            let idx := natOfDigits k.toList
            if idx < xs.length then resolvePath (xs.getD idx JVal.null) ks else Option.none
          else Option.none
      | _ => Option.none

/-! ### `_parse_numeric_string`: numeric normalization (claim C5) -/

/-- A Python value in the domain of `_parse_numeric_string`: `None`, a number,
a string, or anything else. -/
inductive PyVal where
  | none
  | int (n : ℤ)
  | float (q : ℚ)
  | str (s : String)
  | other
  deriving DecidableEq

/-- `_parse_numeric_string(value)`.  The `try/except ValueError` around
`float(...)` is modelled by matching on `pyFloat?`, which makes the function
total: no error escapes. -/
def _parse_numeric_string (value : PyVal) : ℚ :=
  match value with
  | PyVal.none => 0
  | PyVal.int n => (n : ℚ)
  | PyVal.float q => q
  | PyVal.str s =>
      let value_to_parse :=
        if s.contains ' ' && s.contains '(' && s.contains ')' then
          (s.splitOn " ").headD ""
        else s.replace "%" ""
      match pyFloat? value_to_parse with
      | some q => q
      | Option.none => 0
  | PyVal.other => 0

/-! ### Data model: raw documents and normalized match records

The "optimized" document schema consumed by `_extract_team_match_info`:
top-level `home_team`/`away_team`/`home_score`/... keys, lineup and bench
lists of player dicts, a `substitutions` dict with `home`/`away` event lists,
and a `stats` dict with `home_`/`away_`-prefixed numeric values.

Modelling notes, matching how the source reads these dicts:
  * `player['id']` and `player['name']` are subscripted directly (a KeyError
    on their absence is outside the scope of the claims), so they are plain
    fields; every other player field is read with `.get(key, default)` and is
    an `Option` read with `getD`.
  * scores are optional integers; `home_score`/`away_score` absent from the
    document make `match.get(...)` yield `None`.
  * statistic values are modelled as rationals.
  * substitution-event minutes are strings (a numeric minute passes through
    `str()` in the source and is its decimal string here).
-/

structure RawPlayer where
  id : ℤ
  name : String
  position : Option String
  rating : Option ℚ
  minutes : Option ℚ
  goals : Option ℚ
  assists : Option ℚ
  xG : Option ℚ
  deriving DecidableEq

structure SubEvent where
  player_id : ℤ
  player_name : Option String
  minute : Option String
  deriving DecidableEq

structure RawMatch where
  date : Option String
  match_id : Option String
  league : Option String
  round : Option String
  home_team : Option String
  away_team : Option String
  home_score : Option ℤ
  away_score : Option ℤ
  home_formation : Option String
  away_formation : Option String
  home_lineup : List RawPlayer
  away_lineup : List RawPlayer
  home_subs : List RawPlayer
  away_subs : List RawPlayer
  subs_home : List SubEvent
  subs_away : List SubEvent
  stats : List (String × ℚ)
  deriving DecidableEq

/-- The `result` field of a match record: `'W'`/`'D'`/`'L'`. -/
inductive MRes where
  | W
  | D
  | L
  deriving DecidableEq

/-- The normalized per-team view of one match built by
`_extract_team_match_info` (its returned dict). -/
structure MatchRecord where
  date : Option String
  match_id : Option String
  league : Option String
  round : Option String
  is_home : Bool
  opponent : Option String
  formation : Option String
  starters : List RawPlayer
  substitutes : List RawPlayer
  substitutions : List SubEvent
  team_score : ℤ
  opponent_score : ℤ
  result : MRes
  stats : List (String × ℚ)
  deriving DecidableEq

/-! ### `_extract_team_match_info` (claims C1, C2) -/

/-- `_extract_team_match_info(match, team_name)`.

Returns `.ok none` when the team name matches neither recorded side
(the Python `return None`).  When the team matches a side, the Python code
evaluates `team_score > opponent_score` while building the result dict; if
either score is absent (`None`), that comparison raises `TypeError`, modelled
as `.error PyErr.typeError`.  Otherwise one record is produced.  The stats
loop strips the matching `home_`/`away_` prefix (Python `str.replace`, i.e.
every occurrence) and a missing `expected_goals_xg` entry is inserted as 0. -/
def _extract_team_match_info (m : RawMatch) (team_name : String) :
    Except PyErr (Option MatchRecord) :=
  if m.home_team = some team_name ∨ m.away_team = some team_name then
    let is_home : Bool := m.home_team == some team_name
    let opponent := if is_home then m.away_team else m.home_team
    let team_score := if is_home then m.home_score else m.away_score
    let opponent_score := if is_home then m.away_score else m.home_score
    let formation := if is_home then m.home_formation else m.away_formation
    let starters := if is_home then m.home_lineup else m.away_lineup
    let subs := if is_home then m.home_subs else m.away_subs
    let team_substitutions := if is_home then m.subs_home else m.subs_away
    let processed0 := m.stats.foldl
      (fun acc kv =>
        if is_home && kv.1.startsWith "home_" then
          alSet acc (kv.1.replace "home_" "") kv.2
        else if !is_home && kv.1.startsWith "away_" then
          alSet acc (kv.1.replace "away_" "") kv.2
        else acc) []
    let processed_stats :=
      if (alGet? processed0 "expected_goals_xg").isNone then
        alSet processed0 "expected_goals_xg" 0
      else processed0
    match team_score, opponent_score with
    | some ts, some os =>
        Except.ok (some
          { date := m.date
            match_id := m.match_id
            league := m.league
            round := m.round
            is_home := is_home
            opponent := opponent
            formation := formation
            starters := starters
            substitutes := subs
            substitutions := team_substitutions
            team_score := ts
            opponent_score := os
            result := if ts > os then MRes.W else if ts = os then MRes.D else MRes.L
            stats := processed_stats })
    | _, _ => Except.error PyErr.typeError
  else Except.ok Option.none

/-! ### `_analyze_team_formations` (claim C8) -/

/-- Per-formation tally: results and goal sums (`{'W','D','L','GF','GA'}`). -/
structure FPerf where
  W : ℕ
  D : ℕ
  L : ℕ
  GF : ℤ
  GA : ℤ
  deriving DecidableEq

def fperf0 : FPerf := ⟨0, 0, 0, 0, 0⟩

def fperfUpd (m : MatchRecord) (p : FPerf) : FPerf :=
  { W := p.W + (if m.result = MRes.W then 1 else 0)
    D := p.D + (if m.result = MRes.D then 1 else 0)
    L := p.L + (if m.result = MRes.L then 1 else 0)
    GF := p.GF + m.team_score
    GA := p.GA + m.opponent_score }

/-- One loop iteration of `_analyze_team_formations`: Python
`if formation:` is truthiness, so a `None` or empty-string formation is
skipped entirely. -/
def formStep (st : List (String × ℕ) × List (String × FPerf)) (m : MatchRecord) :
    List (String × ℕ) × List (String × FPerf) :=
  match m.formation with
  | some f =>
      if f = "" then st
      else
        (alModify 0 st.1 f (fun n => n + 1), alModify fperf0 st.2 f (fperfUpd m))
  | Option.none => st

/-- The `team_data['formations'][formation]` entry. -/
structure FormationOut where
  usage_count : ℕ
  usage_rate : ℚ
  wins : ℕ
  draws : ℕ
  losses : ℕ
  win_rate : ℚ
  points_per_game : ℚ
  goals_for_avg : ℚ
  goals_against_avg : ℚ
  deriving DecidableEq

/-- `_analyze_team_formations(team_data)`: fold the usage/performance
defaultdicts over the matches, then emit one entry per used formation. -/
def _analyze_team_formations (ms : List MatchRecord) : List (String × FormationOut) :=
  let st := ms.foldl formStep ([], [])
  let total_matches := ms.length
  st.1.map (fun fc =>
    let p := (alGet? st.2 fc.1).getD fperf0
    let tot := p.W + p.D + p.L
    (fc.1,
      { usage_count := fc.2
        usage_rate := ((fc.2 : ℚ) / (total_matches : ℚ)) * 100
        wins := p.W
        draws := p.D
        losses := p.L
        win_rate := if 0 < tot then ((p.W : ℚ) / (tot : ℚ)) * 100 else 0
        points_per_game := if 0 < tot then (((p.W * 3 + p.D : ℕ)) : ℚ) / (tot : ℚ) else 0
        goals_for_avg := if 0 < tot then (p.GF : ℚ) / (tot : ℚ) else 0
        goals_against_avg := if 0 < tot then (p.GA : ℚ) / (tot : ℚ) else 0 }))

/-- Python truthiness of the formation field (`if formation:`). -/
def truthyFormation (m : MatchRecord) : Bool :=
  match m.formation with
  | some f => !(f == "")
  | Option.none => false

/-! ### `_analyze_player_rotations` (claims C4, C7) -/

/-- The per-player defaultdict value of `_analyze_player_rotations`.
`sub_minutes` is present in the default but never appended to in this
function (it stays empty). -/
structure PData where
  name : String
  starts : ℕ
  sub_appearances : ℕ
  formations_played : List (Option String × ℕ)
  positions_played : List (String × ℕ)
  recent_starts : List ℕ
  performance : List ℚ
  goals : ℚ
  assists : ℚ
  xG : ℚ
  total_minutes : ℚ
  sub_minutes : List ℚ
  total_rating : ℚ
  rating_count : ℕ
  deriving DecidableEq

def pdata0 : PData :=
  { name := "", starts := 0, sub_appearances := 0, formations_played := [],
    positions_played := [], recent_starts := [], performance := [],
    goals := 0, assists := 0, xG := 0, total_minutes := 0, sub_minutes := [],
    total_rating := 0, rating_count := 0 }

/-- Mutations applied to a starter's entry in match number `i`.
`match.get('formation', '')` reads a key the extractor always writes, so the
`formations_played` key is the (possibly `None`) formation itself; a rating
is folded into the mean accumulator only when strictly positive. -/
def starterUpd (i : ℕ) (m : MatchRecord) (p : RawPlayer) (d : PData) : PData :=
  let d :=
    { d with
      name := p.name
      starts := d.starts + 1
      formations_played := alModify 0 d.formations_played m.formation (fun n => n + 1)
      positions_played := alModify 0 d.positions_played (p.position.getD "") (fun n => n + 1)
      recent_starts := d.recent_starts ++ [i]
      goals := d.goals + p.goals.getD 0
      assists := d.assists + p.assists.getD 0
      xG := d.xG + p.xG.getD 0
      total_minutes := d.total_minutes + p.minutes.getD 0 }
  if 0 < p.rating.getD 0 then
    { d with
      total_rating := d.total_rating + p.rating.getD 0
      rating_count := d.rating_count + 1
      performance := d.performance ++ [p.rating.getD 0] }
  else d

/-- Mutations applied to a bench player's entry: the name is always set
(this creates the defaultdict entry), but appearance and performance are
accumulated only when the player occurs in the match's substitution-event
list (`is_subbed_in`). -/
def subUpd (m : MatchRecord) (p : RawPlayer) (d : PData) : PData :=
  let d := { d with name := p.name }
  if m.substitutions.any (fun s => s.player_id == p.id) then
    let d :=
      { d with
        sub_appearances := d.sub_appearances + 1
        goals := d.goals + p.goals.getD 0
        assists := d.assists + p.assists.getD 0
        xG := d.xG + p.xG.getD 0
        total_minutes := d.total_minutes + p.minutes.getD 0 }
    if 0 < p.rating.getD 0 then
      { d with
        total_rating := d.total_rating + p.rating.getD 0
        rating_count := d.rating_count + 1
        performance := d.performance ++ [p.rating.getD 0] }
    else d
  else d

/-- One iteration of the `for i, match in enumerate(...)` loop: all starters,
then all bench players. -/
def rotMatchStep (s : List (ℤ × PData)) (im : ℕ × MatchRecord) : List (ℤ × PData) :=
  let s1 := im.2.starters.foldl
    (fun st p => alModify pdata0 st p.id (starterUpd im.1 im.2 p)) s
  im.2.substitutes.foldl (fun st p => alModify pdata0 st p.id (subUpd im.2 p)) s1

/-- The `player_appearances` defaultdict after the whole loop. -/
def player_appearances (ms : List MatchRecord) : List (ℤ × PData) :=
  ms.enum.foldl rotMatchStep []

/-- First key of maximal value, Python `max(d, key=d.get)` on a dict with
insertion order (strict comparison keeps the earlier key on ties). -/
def alArgmax {K : Type} : List (K × ℕ) → Option K
  | [] => Option.none
  | kv :: rest =>
      some ((rest.foldl (fun best e => if e.2 > best.2 then e else best) kv).1)

/-- The `team_data['player_pool'][player_id]` entry.  The `start_rate` field
is the percentage stored by the source (`start_rate * 100`).
`primary_formation` is `max(...)` over `Option String` keys, or `some ""`
for the Python `else ''` branch.  The string-formatted `sub_minute_range`
field is omitted: `sub_minutes` is never populated in this function, so that
field is constantly the empty string. -/
structure PoolEntry where
  name : String
  total_appearances : ℕ
  starts : ℕ
  sub_appearances : ℕ
  start_rate : ℚ
  role : String
  primary_formation : Option String
  primary_position : String
  recent_frequency : ℚ
  avg_rating : ℚ
  recent_form_avg : ℚ
  recent_starts : List ℕ
  goals : ℚ
  assists : ℚ
  xG : ℚ
  total_minutes : ℚ
  minutes_per_game : ℚ
  avg_sub_minute : ℚ
  deriving DecidableEq

/-- Derived per-player metrics (the second loop of
`_analyze_player_rotations`). -/
def poolEntry (total_matches : ℕ) (d : PData) : PoolEntry :=
  let total_apps := d.starts + d.sub_appearances
  let start_rate : ℚ := if 0 < total_matches then (d.starts : ℚ) / (total_matches : ℚ) else 0
  let role :=
    if total_apps = 0 then "⚪ Non-playing"
    else if start_rate > 8 / 10 then "🔵 Key Player"
    else if start_rate > 5 / 10 then "🟡 Regular Starter"
    else if start_rate > 2 / 10 then "🟠 Squad Rotation"
    else "⚪ Fringe Player"
  let recent_starts5 := if d.recent_starts.isEmpty then [] else lastN 5 d.recent_starts
  let recent_frequency : ℚ :=
    if 0 < total_matches then (recent_starts5.length : ℚ) / ((min 5 total_matches : ℕ) : ℚ)
    else 0
  { name := d.name
    total_appearances := total_apps
    starts := d.starts
    sub_appearances := d.sub_appearances
    start_rate := start_rate * 100
    role := role
    primary_formation :=
      if d.formations_played.isEmpty then some "" else (alArgmax d.formations_played).getD (some "")
    primary_position :=
      if d.positions_played.isEmpty then "" else (alArgmax d.positions_played).getD ""
    recent_frequency := recent_frequency * 100
    avg_rating := if 0 < d.rating_count then d.total_rating / (d.rating_count : ℚ) else 0
    recent_form_avg := if d.performance.isEmpty then 0 else meanQ (lastN 5 d.performance)
    recent_starts := recent_starts5
    goals := d.goals
    assists := d.assists
    xG := d.xG
    total_minutes := d.total_minutes
    minutes_per_game := if 0 < total_apps then d.total_minutes / (total_apps : ℚ) else 0
    avg_sub_minute := if d.sub_minutes.isEmpty then 0 else pyRound 1 (meanQ d.sub_minutes) }

/-- `team_data['player_pool']` produced by `_analyze_player_rotations`. -/
def player_pool (ms : List MatchRecord) : List (ℤ × PoolEntry) :=
  (player_appearances ms).map (fun e => (e.1, poolEntry ms.length e.2))

/-! ### `_analyze_formation_performance` (claim C3) -/

/-- The eight advanced-statistic keys, in source order. -/
def stat_keys : List String :=
  ["ball_possession", "total_shots", "shots_on_target", "big_chances",
   "accurate_passes", "fouls_committed", "corners", "expected_goals_xg"]

/-- The `avg_stats` dict: for each key, `np.mean` of
`[m['stats'].get(key, 0) for m in formation_matches]` — a match lacking the
key contributes `0` and stays in the denominator. -/
def avgStatsOf (formation_matches : List MatchRecord) : List (String × ℚ) :=
  stat_keys.foldl
    (fun acc key =>
      let values := formation_matches.map (fun m => (alGet? m.stats key).getD 0)
      alSet acc key (if values.isEmpty then 0 else meanQ values)) []

/-- `_determine_formation_style(formation_data, avg_stats)`: the fixed
decision tree over possession / goals / shots thresholds. -/
def _determine_formation_style (fd : FormationOut) (avg_stats : List (String × ℚ)) : String :=
  let possession := (alGet? avg_stats "ball_possession").getD 0
  let goals_avg := fd.goals_for_avg
  if possession > 55 then
    if goals_avg > 3 / 2 then "🎯 Possession Attack" else "🔄 Possession Control"
  else if (alGet? avg_stats "total_shots").getD 0 > 13 then "🚀 Direct Attack"
  else if fd.goals_against_avg < 1 then "🛡️ Defensive Solid"
  else "⚖️ Balanced"

/-- The `team_data['performance_by_formation'][formation]` entry
(`matches_count` is the `'matches'` key of the source dict). -/
structure PerfOut where
  matches_count : ℕ
  avg_xG : ℚ
  avg_possession : ℚ
  avg_shots : ℚ
  avg_shots_on_target : ℚ
  avg_big_chances : ℚ
  avg_accurate_passes : ℚ
  avg_fouls : ℚ
  avg_corners : ℚ
  style_profile : String
  deriving DecidableEq

def perfEntry (ms : List MatchRecord) (f : String) (fd : FormationOut) : PerfOut :=
  let formation_matches := ms.filter (fun m => m.formation == some f)
  let avg_stats := avgStatsOf formation_matches
  { matches_count := formation_matches.length
    avg_xG := (alGet? avg_stats "expected_goals_xg").getD 0
    avg_possession := (alGet? avg_stats "ball_possession").getD 0
    avg_shots := (alGet? avg_stats "total_shots").getD 0
    avg_shots_on_target := (alGet? avg_stats "shots_on_target").getD 0
    avg_big_chances := (alGet? avg_stats "big_chances").getD 0
    avg_accurate_passes := (alGet? avg_stats "accurate_passes").getD 0
    avg_fouls := (alGet? avg_stats "fouls_committed").getD 0
    avg_corners := (alGet? avg_stats "corners").getD 0
    style_profile := _determine_formation_style fd avg_stats }

/-- `_analyze_formation_performance(team_data)`: one entry per formation in
`team_data['formations']` that has at least one match. -/
def _analyze_formation_performance (ms : List MatchRecord) : List (String × PerfOut) :=
  (_analyze_team_formations ms).filterMap
    (fun fd =>
      let formation_matches := ms.filter (fun m => m.formation == some fd.1)
      if formation_matches.isEmpty then Option.none
      else some (fd.1, perfEntry ms fd.1 fd.2))

/-- Mean of a statistic over only the formation matches that carry it —
written from the specification text of C3 ("matches lacking a given statistic
are excluded from that statistic's mean"), for comparison with the source. -/
def specFormationStatMean (ms : List MatchRecord) (f key : String) : ℚ :=
  let fm := (ms.filter (fun m => m.formation == some f)).filter
    (fun m => (alGet? m.stats key).isSome)
  if fm.isEmpty then 0 else meanQ (fm.map (fun m => (alGet? m.stats key).getD 0))

/-- What the source actually computes per statistic: the mean over all the
formation's matches, a match lacking the key contributing zero. -/
def zeroFilledStatMean (ms : List MatchRecord) (f key : String) : ℚ :=
  let fm := ms.filter (fun m => m.formation == some f)
  (fm.map (fun m => (alGet? m.stats key).getD 0)).sum / (fm.length : ℚ)

/-! ### `_analyze_substitution_patterns` (claims C9, C10) -/

/-- The per-player defaultdict value of `_analyze_substitution_patterns`.
The display-name attachment at the end of the source function (which only
adds a `name` string and mutates no tallies) is not embedded. -/
structure SubData where
  total_sub_apps : ℕ
  goals_as_sub : ℚ
  assists_as_sub : ℚ
  xG_as_sub : ℚ
  avg_sub_minute : ℚ
  sub_minutes : List ℤ
  resW : ℕ
  resD : ℕ
  resL : ℕ
  avg_rating_as_sub : ℚ
  total_rating_as_sub : ℚ
  rating_count_as_sub : ℕ
  deriving DecidableEq

def subData0 : SubData :=
  { total_sub_apps := 0, goals_as_sub := 0, assists_as_sub := 0, xG_as_sub := 0,
    avg_sub_minute := 0, sub_minutes := [], resW := 0, resD := 0, resL := 0,
    avg_rating_as_sub := 0, total_rating_as_sub := 0, rating_count_as_sub := 0 }

/-- The apostrophe character stripped from minute strings. -/
def minuteTick : String := String.mk [Char.ofNat 39]

/-- Parsed entry minute of one substitution event:
`int(str(minute).replace(tick, "").split("+")[0])`, skipped (`none`) when the
minute is absent / `'Unknown'` or `int()` raises `ValueError`. -/
def minuteOf? (e : SubEvent) : Option ℤ :=
  match e.minute with
  | Option.none => Option.none
  | some sm =>
      if sm = "Unknown" then Option.none
      else pyInt? (((sm.replace minuteTick "").splitOn "+").headD "")

/-- Mutations applied per substitution event, with `pd` the player's entry in
the bench-roster map: tally the appearance and the team result, record a
parseable entry minute, accumulate substitute-only stats, and fold the rating
only when strictly positive. -/
def eventUpd (m : MatchRecord) (pd : RawPlayer) (e : SubEvent) (sa : SubData) : SubData :=
  let sa :=
    { sa with
      total_sub_apps := sa.total_sub_apps + 1
      resW := sa.resW + (if m.result = MRes.W then 1 else 0)
      resD := sa.resD + (if m.result = MRes.D then 1 else 0)
      resL := sa.resL + (if m.result = MRes.L then 1 else 0) }
  let sa :=
    match minuteOf? e with
    | some mn => { sa with sub_minutes := sa.sub_minutes ++ [mn] }
    | Option.none => sa
  let sa :=
    { sa with
      goals_as_sub := sa.goals_as_sub + pd.goals.getD 0
      assists_as_sub := sa.assists_as_sub + pd.assists.getD 0
      xG_as_sub := sa.xG_as_sub + pd.xG.getD 0 }
  if 0 < pd.rating.getD 0 then
    { sa with
      total_rating_as_sub := sa.total_rating_as_sub + pd.rating.getD 0
      rating_count_as_sub := sa.rating_count_as_sub + 1 }
  else sa

/-- The dict comprehension `{player['id']: player for player in substitutes}`
(later duplicates overwrite earlier ones). -/
def rosterMap (subs : List RawPlayer) : List (ℤ × RawPlayer) :=
  subs.foldl (fun d p => alSet d p.id p) []

/-- One iteration of the match loop: every substitution event whose player id
hits the bench-roster map is processed; an event that misses it is skipped
without even creating a defaultdict entry. -/
def subMatchStep (s : List (ℤ × SubData)) (m : MatchRecord) : List (ℤ × SubData) :=
  let roster := rosterMap m.substitutes
  m.substitutions.foldl
    (fun st e =>
      match alGet? roster e.player_id with
      | some pd => alModify subData0 st e.player_id (eventUpd m pd e)
      | Option.none => st) s

def substitution_analysis_raw (ms : List MatchRecord) : List (ℤ × SubData) :=
  ms.foldl subMatchStep []

/-- The averages pass: set `avg_sub_minute` / `avg_rating_as_sub` only when
there is at least one valid sample; otherwise the initial sentinel `0`
("no rating recorded", per the data model) is left in place. -/
def finalizeSub (sa : SubData) : SubData :=
  let sa :=
    if sa.sub_minutes.isEmpty then sa
    else { sa with avg_sub_minute := pyRound 1 (meanI sa.sub_minutes) }
  if 0 < sa.rating_count_as_sub then
    { sa with
      avg_rating_as_sub :=
        pyRound 2 (sa.total_rating_as_sub / (sa.rating_count_as_sub : ℚ)) }
  else sa

/-- `team_data['substitution_analysis']` produced by
`_analyze_substitution_patterns`. -/
def _analyze_substitution_patterns (ms : List MatchRecord) : List (ℤ × SubData) :=
  (substitution_analysis_raw ms).map (fun e => (e.1, finalizeSub e.2))

/-- A match with the substitution events whose player id does not appear in
the bench roster removed (the C10 claim: such events are ignored entirely). -/
def dropForeignSubs (m : MatchRecord) : MatchRecord :=
  { m with
    substitutions :=
      m.substitutions.filter (fun e => m.substitutes.any (fun p => p.id == e.player_id)) }

/-! ### Specification-side sample lists for the aggregator claims -/

/-- A neutral `RawPlayer` used only as `Option.getD` filler where a lookup is
already known to succeed. -/
def rpDefault : RawPlayer :=
  { id := 0, name := "", position := Option.none, rating := Option.none,
    minutes := Option.none, goals := Option.none, assists := Option.none,
    xG := Option.none }

/-- The rating samples a match contributes to one player's accumulator in
`_analyze_player_rotations`: one per starting appearance, and one per bench
appearance whose player occurs in the match's substitution-event list. -/
def matchRatings (pid : ℤ) (m : MatchRecord) : List ℚ :=
  ((m.starters.filter (fun p => decide (p.id = pid))).map (fun p => p.rating.getD 0))
    ++ ((m.substitutes.filter (fun p => decide (p.id = pid))).filterMap
        (fun p =>
          if m.substitutions.any (fun s => s.player_id == p.id) then
            some (p.rating.getD 0)
          else Option.none))

/-- All rating samples of one player across a match sequence. -/
def ratingSamples (pid : ℤ) : List MatchRecord → List ℚ
  | [] => []
  | m :: rest => matchRatings pid m ++ ratingSamples pid rest

/-- The per-player projection of one iteration of the rotation loop: the
updates applied to player `pid`'s own entry. -/
def rotValStep (pid : ℤ) (v : PData) (im : ℕ × MatchRecord) : PData :=
  let v1 := (im.2.starters.filter (fun p => decide (p.id = pid))).foldl
    (fun v p => starterUpd im.1 im.2 p v) v
  (im.2.substitutes.filter (fun p => decide (p.id = pid))).foldl
    (fun v p => subUpd im.2 p v) v1

/-- The bench-roster entry for `pid` in one match (meaningful whenever the
roster lookup succeeds). -/
def rosterPlayer (pid : ℤ) (m : MatchRecord) : RawPlayer :=
  (alGet? (rosterMap m.substitutes) pid).getD rpDefault

/-- The substitution events of one match that are processed for player `pid`
by `_analyze_substitution_patterns`: events bearing that player id, kept only
when the id hits the bench-roster map. -/
def pidSubEvents (pid : ℤ) (m : MatchRecord) : List SubEvent :=
  m.substitutions.filter
    (fun e => decide (e.player_id = pid) && (alGet? (rosterMap m.substitutes) pid).isSome)

/-- The valid (parseable) entry-minute samples of one player across a match
sequence. -/
def minuteSamples (pid : ℤ) : List MatchRecord → List ℤ
  | [] => []
  | m :: rest => (pidSubEvents pid m).filterMap minuteOf? ++ minuteSamples pid rest

/-- The substitute rating samples of one player across a match sequence (one
per processed event, from the bench-roster entry). -/
def subRatingSamples (pid : ℤ) : List MatchRecord → List ℚ
  | [] => []
  | m :: rest =>
      (pidSubEvents pid m).map (fun _ => (rosterPlayer pid m).rating.getD 0)
        ++ subRatingSamples pid rest

/-- The per-player projection of one iteration of the substitution loop. -/
def subValStep (pid : ℤ) (v : SubData) (m : MatchRecord) : SubData :=
  (pidSubEvents pid m).foldl (fun v e => eventUpd m (rosterPlayer pid m) e v) v

/-! ### Concrete inputs for witnesses and counterexamples -/

/-- Build a `MatchRecord` with the fields the aggregators read. -/
def mkMR (formation : Option String) (stats : List (String × ℚ))
    (starters substitutes : List RawPlayer) (subst : List SubEvent) (res : MRes) :
    MatchRecord :=
  { date := Option.none, match_id := Option.none, league := Option.none,
    round := Option.none, is_home := true, opponent := Option.none,
    formation := formation, starters := starters, substitutes := substitutes,
    substitutions := subst, team_score := 2, opponent_score := 2, result := res,
    stats := stats }

def mrDefault : MatchRecord := mkMR Option.none [] [] [] [] MRes.D

/-- A starting player with the given id, name and rating. -/
def mkSP (i : ℤ) (nm : String) (r : ℚ) : RawPlayer :=
  { id := i, name := nm, position := some "ST", rating := some r,
    minutes := some 90, goals := some 0, assists := some 0, xG := some 0 }

/-- C1 failing input: the requested team is the home side but both scores are
absent from the document. -/
def c1doc : RawMatch :=
  { date := some "2024-08-01", match_id := Option.none, league := Option.none,
    round := Option.none, home_team := some "Alpha", away_team := some "Bravo",
    home_score := Option.none, away_score := Option.none,
    home_formation := some "4-3-3", away_formation := Option.none,
    home_lineup := [], away_lineup := [], home_subs := [], away_subs := [],
    subs_home := [], subs_away := [], stats := [] }

/-- C2 witness input: a complete home win 2-1. -/
def c2doc : RawMatch :=
  { date := some "2024-08-02", match_id := some "m1", league := some "L",
    round := some "1", home_team := some "Alpha", away_team := some "Bravo",
    home_score := some 2, away_score := some 1,
    home_formation := some "4-3-3", away_formation := some "4-4-2",
    home_lineup := [mkSP 1 "P1" (15 / 2)], away_lineup := [],
    home_subs := [], away_subs := [], subs_home := [], subs_away := [],
    stats := [("home_ball_possession", 57), ("away_ball_possession", 43)] }

def c2rec : MatchRecord :=
  match _extract_team_match_info c2doc "Alpha" with
  | Except.ok (some r) => r
  | _ => mrDefault

/-- C3 inputs: two matches in formation 4-4-2, the second lacking the
possession statistic. -/
def c3m1 : MatchRecord := mkMR (some "4-4-2") [("ball_possession", 50)] [] [] [] MRes.D

def c3m2 : MatchRecord := mkMR (some "4-4-2") [] [] [] [] MRes.D

def perfOutDefault : PerfOut :=
  { matches_count := 0, avg_xG := 0, avg_possession := 0, avg_shots := 0,
    avg_shots_on_target := 0, avg_big_chances := 0, avg_accurate_passes := 0,
    avg_fouls := 0, avg_corners := 0, style_profile := "" }

def c3perf : PerfOut :=
  (alGet? (_analyze_formation_performance [c3m1, c3m2]) "4-4-2").getD perfOutDefault

/-- C4 witness input: two matches, player 1 starting both. -/
def c4ms : List MatchRecord :=
  [mkMR (some "4-3-3") [] [mkSP 1 "P1" (15 / 2)] [] [] MRes.W,
   mkMR (some "4-3-3") [] [mkSP 1 "P1" 6] [] [] MRes.D]

def c4prof : PoolEntry := (alGet? (player_pool c4ms) 1).getD (poolEntry 0 pdata0)

/-- C7 witness input: player 1 starts three matches with recorded ratings
0, 0 and 8.1 (a zero rating means "no rating recorded"). -/
def c7ms : List MatchRecord :=
  [mkMR (some "4-4-2") [] [mkSP 1 "P1" 0] [] [] MRes.D,
   mkMR (some "4-4-2") [] [mkSP 1 "P1" 0] [] [] MRes.L,
   mkMR (some "4-4-2") [] [mkSP 1 "P1" (81 / 10)] [] [] MRes.W]

def c7prof : PoolEntry := (alGet? (player_pool c7ms) 1).getD (poolEntry 0 pdata0)

/-- C9 witness input: one match where player 2 comes on in minute 67 with
rating 7. -/
def c9sub : RawPlayer :=
  { id := 2, name := "S2", position := some "FW", rating := some 7,
    minutes := some 25, goals := some 1, assists := some 0, xG := some (1 / 2) }

def c9ev : SubEvent := { player_id := 2, player_name := some "S2", minute := some "67" }

def c9ms : List MatchRecord := [mkMR (some "4-4-2") [] [] [c9sub] [c9ev] MRes.W]

def c9sa : SubData := (alGet? (_analyze_substitution_patterns c9ms) 2).getD subData0

/-!
## Theorems

First the association-list toolkit, then per-aggregator characterizations,
then the claim theorems C1-C10 with their witnesses and counterexamples.
-/

section AListLemmas

variable {K : Type} {V : Type} {A : Type} [DecidableEq K]

theorem alGet?_alSet (s : List (K × V)) (k k' : K) (v : V) :
    alGet? (alSet s k v) k' = if k' = k then some v else alGet? s k' := by
  induction s with
  | nil =>
      by_cases h : k' = k
      · subst h; simp [alSet, alGet?]
      · simp [alSet, alGet?, h, Ne.symm h]
  | cons hd tl ih =>
      obtain ⟨k1, v1⟩ := hd
      by_cases h1 : k1 = k
      · subst h1
        by_cases h2 : k' = k1
        · subst h2; simp [alSet, alGet?]
        · simp [alSet, alGet?, h2, Ne.symm h2]
      · by_cases h2 : k1 = k'
        · subst h2
          simp [alSet, alGet?, h1]
        · simp [alSet, alGet?, h1, h2, ih]

theorem alGet?_alModify (v0 : V) (s : List (K × V)) (k k' : K) (f : V → V) :
    alGet? (alModify v0 s k f) k' =
      if k' = k then some (f ((alGet? s k).getD v0)) else alGet? s k' := by
  induction s with
  | nil =>
      by_cases h : k' = k
      · subst h; simp [alModify, alGet?]
      · simp [alModify, alGet?, h, Ne.symm h]
  | cons hd tl ih =>
      obtain ⟨k1, v1⟩ := hd
      by_cases h1 : k1 = k
      · subst h1
        by_cases h2 : k' = k1
        · subst h2; simp [alModify, alGet?]
        · simp [alModify, alGet?, h2, Ne.symm h2]
      · by_cases h2 : k1 = k'
        · subst h2
          simp [alModify, alGet?, h1]
        · simp [alModify, alGet?, h1, h2, ih]

/-- Effect, on one key, of folding a list of defaultdict mutations
(`d[key a]` updated by `upd a`) over an association list: only the items whose
key matches contribute, in order. -/
theorem foldl_alModify_getD (v0 : V) (key : A → K) (upd : A → V → V) :
    ∀ (l : List A) (s : List (K × V)) (k : K),
      (alGet? (l.foldl (fun st a => alModify v0 st (key a) (upd a)) s) k).getD v0 =
        (l.filter (fun a => decide (key a = k))).foldl (fun v a => upd a v)
          ((alGet? s k).getD v0) := by
  intro l
  induction l with
  | nil => intro s k; simp
  | cons a tl ih =>
      intro s k
      rw [List.foldl_cons, ih, alGet?_alModify]
      by_cases h : key a = k
      · rw [if_pos h.symm, h, Option.getD_some]
        simp [List.filter_cons, h]
      · rw [if_neg (fun hh => h hh.symm)]
        simp [List.filter_cons, h]

/-- Looking a key up in the value-mapped association list. -/
theorem alGet?_mapVal {W : Type} (g : V → W) (s : List (K × V)) (k : K) :
    alGet? (s.map (fun e => (e.1, g e.2))) k = (alGet? s k).map g := by
  induction s with
  | nil => simp [alGet?]
  | cons hd tl ih =>
      obtain ⟨k1, v1⟩ := hd
      by_cases h : k1 = k <;> simp [alGet?, h, ih]

/-- The values-sum of a usage map after one defaultdict increment. -/
theorem sumVals_alModify_succ (s : List (K × ℕ)) (k : K) :
    ((alModify 0 s k (fun n => n + 1)).map (fun e => e.2)).sum =
      (s.map (fun e => e.2)).sum + 1 := by
  induction s with
  | nil => simp [alModify]
  | cons hd tl ih =>
      obtain ⟨k1, v1⟩ := hd
      by_cases h : k1 = k
      · simp [alModify, h]
        omega
      · simp [alModify, h, ih]
        omega

/-- Roster-map membership: the dict comprehension over the bench list hits a
key exactly when some bench player bears that id. -/
theorem rosterMap_isSome (subs : List RawPlayer) (k : ℤ) :
    (alGet? (rosterMap subs) k).isSome = subs.any (fun p => p.id == k) := by
  have aux : ∀ (l : List RawPlayer) (acc : List (ℤ × RawPlayer)),
      (alGet? (l.foldl (fun d p => alSet d p.id p) acc) k).isSome =
        ((alGet? acc k).isSome || l.any (fun p => p.id == k)) := by
    intro l
    induction l with
    | nil => intro acc; simp
    | cons p tl ih =>
        intro acc
        rw [List.foldl_cons, ih, alGet?_alSet]
        by_cases h : k = p.id
        · simp [h]
        · have hb : (p.id == k) = false := by
            simp only [beq_eq_false_iff_ne, ne_eq]
            exact fun hh => h hh.symm
          simp [h, hb]
  rw [rosterMap, aux]
  simp [alGet?]

end AListLemmas

/-! ### Characterizing `_analyze_player_rotations` per player -/

theorem posOf_cons (a : ℚ) (l : List ℚ) :
    posOf (a :: l) = if 0 < a then a :: posOf l else posOf l := by
  by_cases h : 0 < a <;> simp [posOf, List.filter_cons, h]

theorem posOf_append (l1 l2 : List ℚ) : posOf (l1 ++ l2) = posOf l1 ++ posOf l2 := by
  simp [posOf, List.filter_append]

theorem starterUpd_starts (i : ℕ) (m : MatchRecord) (p : RawPlayer) (v : PData) :
    (starterUpd i m p v).starts = v.starts + 1 := by
  simp only [starterUpd]
  split <;> rfl

theorem subUpd_starts (m : MatchRecord) (p : RawPlayer) (v : PData) :
    (subUpd m p v).starts = v.starts := by
  simp only [subUpd]
  split
  · split <;> rfl
  · rfl

theorem starterUpd_ratings (i : ℕ) (m : MatchRecord) (p : RawPlayer) (v : PData) :
    (starterUpd i m p v).total_rating
        = v.total_rating + (if 0 < p.rating.getD 0 then p.rating.getD 0 else 0) ∧
      (starterUpd i m p v).rating_count
        = v.rating_count + (if 0 < p.rating.getD 0 then 1 else 0) := by
  simp only [starterUpd]
  split <;> simp_all

theorem subUpd_ratings (m : MatchRecord) (p : RawPlayer) (v : PData) :
    (subUpd m p v).total_rating
        = v.total_rating +
          (if m.substitutions.any (fun s => s.player_id == p.id) then
            (if 0 < p.rating.getD 0 then p.rating.getD 0 else 0) else 0) ∧
      (subUpd m p v).rating_count
        = v.rating_count +
          (if m.substitutions.any (fun s => s.player_id == p.id) then
            (if 0 < p.rating.getD 0 then 1 else 0) else 0) := by
  simp only [subUpd]
  split
  · split <;> simp_all
  · simp_all

theorem starterFold_starts (i : ℕ) (m : MatchRecord) :
    ∀ (l : List RawPlayer) (v : PData),
      (l.foldl (fun v p => starterUpd i m p v) v).starts = v.starts + l.length := by
  intro l
  induction l with
  | nil => intro v; simp
  | cons p tl ih =>
      intro v
      rw [List.foldl_cons, ih, starterUpd_starts]
      simp
      omega

theorem subFold_starts (m : MatchRecord) :
    ∀ (l : List RawPlayer) (v : PData),
      (l.foldl (fun v p => subUpd m p v) v).starts = v.starts := by
  intro l
  induction l with
  | nil => intro v; rfl
  | cons p tl ih =>
      intro v
      rw [List.foldl_cons, ih, subUpd_starts]

theorem starterFold_ratings (i : ℕ) (m : MatchRecord) :
    ∀ (l : List RawPlayer) (v : PData),
      (l.foldl (fun v p => starterUpd i m p v) v).total_rating
          = v.total_rating + (posOf (l.map (fun p => p.rating.getD 0))).sum ∧
        (l.foldl (fun v p => starterUpd i m p v) v).rating_count
          = v.rating_count + (posOf (l.map (fun p => p.rating.getD 0))).length := by
  intro l
  induction l with
  | nil => intro v; simp [posOf]
  | cons p tl ih =>
      intro v
      rw [List.foldl_cons]
      obtain ⟨ih1, ih2⟩ := ih (starterUpd i m p v)
      obtain ⟨hu1, hu2⟩ := starterUpd_ratings i m p v
      rw [List.map_cons, posOf_cons]
      by_cases h : 0 < p.rating.getD 0
      · simp only [h, if_pos] at hu1 hu2 ⊢
        constructor
        · rw [ih1, hu1]; simp; ring
        · rw [ih2, hu2]; simp; omega
      · simp only [h, if_neg, not_false_iff] at hu1 hu2 ⊢
        constructor
        · rw [ih1, hu1]; simp
        · rw [ih2, hu2]; simp

theorem subFold_ratings (m : MatchRecord) :
    ∀ (l : List RawPlayer) (v : PData),
      (l.foldl (fun v p => subUpd m p v) v).total_rating
          = v.total_rating +
            (posOf (l.filterMap (fun p =>
              if m.substitutions.any (fun s => s.player_id == p.id) then
                some (p.rating.getD 0) else Option.none))).sum ∧
        (l.foldl (fun v p => subUpd m p v) v).rating_count
          = v.rating_count +
            (posOf (l.filterMap (fun p =>
              if m.substitutions.any (fun s => s.player_id == p.id) then
                some (p.rating.getD 0) else Option.none))).length := by
  intro l
  induction l with
  | nil => intro v; simp [posOf]
  | cons p tl ih =>
      intro v
      rw [List.foldl_cons]
      obtain ⟨ih1, ih2⟩ := ih (subUpd m p v)
      obtain ⟨hu1, hu2⟩ := subUpd_ratings m p v
      rw [List.filterMap_cons]
      by_cases hin : m.substitutions.any (fun s => s.player_id == p.id)
      · simp only [hin, if_pos] at hu1 hu2 ⊢
        rw [posOf_cons]
        by_cases h : 0 < p.rating.getD 0
        · simp only [h, if_pos] at hu1 hu2 ⊢
          constructor
          · rw [ih1, hu1]; simp; ring
          · rw [ih2, hu2]; simp; omega
        · simp only [h, if_neg, not_false_iff] at hu1 hu2 ⊢
          constructor
          · rw [ih1, hu1]; simp
          · rw [ih2, hu2]; simp
      · simp only [hin, if_neg, not_false_iff] at hu1 hu2 ⊢
        constructor
        · rw [ih1, hu1]; simp
        · rw [ih2, hu2]; simp

/-- Per-player view of the rotation fold: the defaultdict entry for `pid`
after processing the matches equals the per-player fold `rotValStep`. -/
theorem rot_getD (pid : ℤ) :
    ∀ (ims : List (ℕ × MatchRecord)) (s : List (ℤ × PData)),
      (alGet? (ims.foldl rotMatchStep s) pid).getD pdata0 =
        ims.foldl (rotValStep pid) ((alGet? s pid).getD pdata0) := by
  intro ims
  induction ims with
  | nil => intro s; simp
  | cons im tl ih =>
      intro s
      rw [List.foldl_cons, List.foldl_cons, ih]
      congr 1
      show (alGet? (im.2.substitutes.foldl
          (fun st p => alModify pdata0 st p.id (subUpd im.2 p))
          (im.2.starters.foldl
            (fun st p => alModify pdata0 st p.id (starterUpd im.1 im.2 p)) s)) pid).getD pdata0
        = rotValStep pid ((alGet? s pid).getD pdata0) im
      rw [foldl_alModify_getD pdata0 (fun p : RawPlayer => p.id) (fun p => subUpd im.2 p),
        foldl_alModify_getD pdata0 (fun p : RawPlayer => p.id) (fun p => starterUpd im.1 im.2 p)]
      rfl

theorem player_appearances_getD (ms : List MatchRecord) (pid : ℤ) :
    (alGet? (player_appearances ms) pid).getD pdata0 =
      ms.enum.foldl (rotValStep pid) pdata0 := by
  rw [player_appearances, rot_getD]
  rfl

theorem rotFold_starts (pid : ℤ) :
    ∀ (ims : List (ℕ × MatchRecord)) (v : PData),
      (ims.foldl (rotValStep pid) v).starts =
        v.starts +
          (ims.map (fun im => im.2.starters.countP (fun p => decide (p.id = pid)))).sum := by
  intro ims
  induction ims with
  | nil => intro v; simp
  | cons im tl ih =>
      intro v
      rw [List.foldl_cons, ih]
      have hstep : (rotValStep pid v im).starts =
          v.starts + im.2.starters.countP (fun p => decide (p.id = pid)) := by
        show ((im.2.substitutes.filter (fun p => decide (p.id = pid))).foldl
            (fun v p => subUpd im.2 p v)
            ((im.2.starters.filter (fun p => decide (p.id = pid))).foldl
              (fun v p => starterUpd im.1 im.2 p v) v)).starts = _
        rw [subFold_starts, starterFold_starts, List.countP_eq_length_filter]
      rw [hstep]
      simp
      omega

theorem rotFold_ratings (pid : ℤ) :
    ∀ (ims : List (ℕ × MatchRecord)) (v : PData),
      (ims.foldl (rotValStep pid) v).total_rating
          = v.total_rating + (posOf (ratingSamples pid (ims.map Prod.snd))).sum ∧
        (ims.foldl (rotValStep pid) v).rating_count
          = v.rating_count + (posOf (ratingSamples pid (ims.map Prod.snd))).length := by
  intro ims
  induction ims with
  | nil => intro v; simp [ratingSamples, posOf]
  | cons im tl ih =>
      intro v
      rw [List.foldl_cons]
      obtain ⟨ih1, ih2⟩ := ih (rotValStep pid v im)
      have hstep1 : (rotValStep pid v im).total_rating
          = v.total_rating + (posOf (matchRatings pid im.2)).sum := by
        show ((im.2.substitutes.filter (fun p => decide (p.id = pid))).foldl
            (fun v p => subUpd im.2 p v)
            ((im.2.starters.filter (fun p => decide (p.id = pid))).foldl
              (fun v p => starterUpd im.1 im.2 p v) v)).total_rating = _
        rw [(subFold_ratings im.2 _ _).1, (starterFold_ratings im.1 im.2 _ _).1,
          matchRatings, posOf_append]
        simp
        ring
      have hstep2 : (rotValStep pid v im).rating_count
          = v.rating_count + (posOf (matchRatings pid im.2)).length := by
        show ((im.2.substitutes.filter (fun p => decide (p.id = pid))).foldl
            (fun v p => subUpd im.2 p v)
            ((im.2.starters.filter (fun p => decide (p.id = pid))).foldl
              (fun v p => starterUpd im.1 im.2 p v) v)).rating_count = _
        rw [(subFold_ratings im.2 _ _).2, (starterFold_ratings im.1 im.2 _ _).2,
          matchRatings, posOf_append]
        simp
        omega
      constructor
      · rw [ih1, hstep1]
        show _ = v.total_rating + (posOf (ratingSamples pid (im.2 :: tl.map Prod.snd))).sum
        rw [ratingSamples, posOf_append]
        simp
        ring
      · rw [ih2, hstep2]
        show _ = v.rating_count + (posOf (ratingSamples pid (im.2 :: tl.map Prod.snd))).length
        rw [ratingSamples, posOf_append]
        simp
        omega

theorem sum_map_le_length {α : Type} (f : α → ℕ) :
    ∀ l : List α, (∀ a ∈ l, f a ≤ 1) → (l.map f).sum ≤ l.length := by
  intro l
  induction l with
  | nil => simp
  | cons a tl ih =>
      intro h
      simp only [List.map_cons, List.sum_cons, List.length_cons]
      have h1 := h a (List.mem_cons_self a tl)
      have h2 := ih (fun b hb => h b (List.mem_cons_of_mem a hb))
      omega

theorem countP_eq_count_map (pid : ℤ) :
    ∀ l : List RawPlayer,
      l.countP (fun p => decide (p.id = pid)) = (l.map (fun p => p.id)).count pid := by
  intro l
  induction l with
  | nil => simp
  | cons p tl ih =>
      by_cases hp : p.id = pid <;>
        simp [List.countP_cons, List.count_cons, hp, ih]

theorem enum_map_val {β : Type} (g : MatchRecord → β) (ms : List MatchRecord) :
    ms.enum.map (fun im => g im.2) = ms.map g := by
  rw [show (fun im : ℕ × MatchRecord => g im.2) = g ∘ Prod.snd from rfl]
  rw [← List.map_map, List.enum_map_snd]

/-- C4: for every `PlayerProfile` produced by the player rotation aggregator —
under the data-model invariant that player identifiers are unique within a
match's starting lineup — `starts + sub_appearances` equals
`total_appearances`, and the derived start rate `starts / total_matches`
satisfies `0 ≤ start_rate ≤ 1` (the source stores it scaled to a percentage:
the stored field equals that quotient times 100). -/
theorem C4_profile_invariants (ms : List MatchRecord) (pid : ℤ) (prof : PoolEntry)
    (h : alGet? (player_pool ms) pid = some prof)
    (hids : ∀ m ∈ ms, (m.starters.map (fun p => p.id)).Nodup) :
    prof.total_appearances = prof.starts + prof.sub_appearances ∧
    prof.starts ≤ ms.length ∧
    prof.start_rate =
      (if 0 < ms.length then (prof.starts : ℚ) / (ms.length : ℚ) else 0) * 100 ∧
    0 ≤ (if 0 < ms.length then (prof.starts : ℚ) / (ms.length : ℚ) else 0) ∧
    (if 0 < ms.length then (prof.starts : ℚ) / (ms.length : ℚ) else 0) ≤ 1 := by
  rw [player_pool, alGet?_mapVal] at h
  cases hd : alGet? (player_appearances ms) pid with
  | none => rw [hd] at h; exact absurd h (by simp)
  | some d =>
      rw [hd] at h
      have hprof : prof = poolEntry ms.length d := by
        cases h
        rfl
      subst hprof
      have hdval : d = ms.enum.foldl (rotValStep pid) pdata0 := by
        have hh := player_appearances_getD ms pid
        rw [hd] at hh
        simpa using hh
      have hstarts : d.starts =
          (ms.map (fun mm => mm.starters.countP (fun p => decide (p.id = pid)))).sum := by
        rw [hdval, rotFold_starts]
        rw [enum_map_val (fun mm => mm.starters.countP (fun p => decide (p.id = pid)))]
        show pdata0.starts + _ = _
        simp [pdata0]
      have hb : d.starts ≤ ms.length := by
        rw [hstarts]
        apply sum_map_le_length
        intro mm hm
        rw [countP_eq_count_map]
        exact List.nodup_iff_count_le_one.mp (hids mm hm) pid
      refine ⟨rfl, hb, rfl, ?_, ?_⟩
      · split
        · positivity
        · exact le_refl 0
      · split
        case isTrue hlen =>
          rw [div_le_one (by exact_mod_cast hlen)]
          show ((d.starts : ℚ)) ≤ ((ms.length : ℚ))
          exact_mod_cast hb
        case isFalse hlen => exact zero_le_one

/-- C4 witness: the invariants instantiated on a concrete two-match sequence
where player 1 starts both matches. -/
theorem opt_eq_some_getD {α : Type} (o : Option α) (d : α) (h : o.isSome = true) :
    o = some (o.getD d) := by
  cases o with
  | none => simp at h
  | some v => rfl

theorem C4_profile_invariants_witness :
    alGet? (player_pool c4ms) 1 = some c4prof ∧
    (c4prof.total_appearances = c4prof.starts + c4prof.sub_appearances ∧
      c4prof.starts ≤ c4ms.length ∧
      c4prof.start_rate =
        (if 0 < c4ms.length then (c4prof.starts : ℚ) / (c4ms.length : ℚ) else 0) * 100 ∧
      0 ≤ (if 0 < c4ms.length then (c4prof.starts : ℚ) / (c4ms.length : ℚ) else 0) ∧
      (if 0 < c4ms.length then (c4prof.starts : ℚ) / (c4ms.length : ℚ) else 0) ≤ 1) := by
  have h1 : alGet? (player_pool c4ms) 1 = some c4prof :=
    opt_eq_some_getD _ _ (by decide)
  exact ⟨h1, C4_profile_invariants c4ms 1 c4prof h1 (by decide)⟩

/-- C7: in the player rotation aggregator a rating is folded into the
mean-rating accumulator only when strictly greater than zero: every produced
profile's `avg_rating` is the mean of the strictly positive rating samples of
that player's counted appearances (or the sentinel 0 when there is none). -/
theorem C7_positive_rating_mean (ms : List MatchRecord) (pid : ℤ) (prof : PoolEntry)
    (h : alGet? (player_pool ms) pid = some prof) :
    prof.avg_rating =
      (if 0 < (posOf (ratingSamples pid ms)).length then
        (posOf (ratingSamples pid ms)).sum / ((posOf (ratingSamples pid ms)).length : ℚ)
      else 0) := by
  rw [player_pool, alGet?_mapVal] at h
  cases hd : alGet? (player_appearances ms) pid with
  | none => rw [hd] at h; exact absurd h (by simp)
  | some d =>
      rw [hd] at h
      have hprof : prof = poolEntry ms.length d := by
        cases h
        rfl
      subst hprof
      have hdval : d = ms.enum.foldl (rotValStep pid) pdata0 := by
        have hh := player_appearances_getD ms pid
        rw [hd] at hh
        simpa using hh
      obtain ⟨h1, h2⟩ := rotFold_ratings pid ms.enum pdata0
      rw [← hdval] at h1 h2
      rw [List.enum_map_snd] at h1 h2
      show (if 0 < d.rating_count then d.total_rating / (d.rating_count : ℚ) else 0) = _
      rw [h1, h2]
      show (if 0 < pdata0.rating_count + _ then
          (pdata0.total_rating + _) / ((pdata0.rating_count + _ : ℕ) : ℚ) else 0) = _
      simp [pdata0]

/-- C7 witness: a profile built from the rating samples `[0, 0, 8.1]` reports
mean rating 8.1 (the zeros are excluded), not 2.7. -/
theorem C7_positive_rating_mean_witness :
    alGet? (player_pool c7ms) 1 = some c7prof ∧
    c7prof.avg_rating =
      (if 0 < (posOf (ratingSamples 1 c7ms)).length then
        (posOf (ratingSamples 1 c7ms)).sum / ((posOf (ratingSamples 1 c7ms)).length : ℚ)
      else 0) ∧
    c7prof.avg_rating = 81 / 10 := by
  have h1 : alGet? (player_pool c7ms) 1 = some c7prof :=
    opt_eq_some_getD _ _ (by decide)
  have h2 := C7_positive_rating_mean c7ms 1 c7prof h1
  have hpos : posOf (ratingSamples 1 c7ms) = [81 / 10] := by
    with_unfolding_all decide
  refine ⟨h1, h2, ?_⟩
  rw [h2, hpos]
  norm_num

/-! ### Claim C8: formation usage counts -/

theorem formFold_usage_sum :
    ∀ (l : List MatchRecord) (st : List (String × ℕ) × List (String × FPerf)),
      (((l.foldl formStep st).1).map (fun e => e.2)).sum =
        (st.1.map (fun e => e.2)).sum + l.countP truthyFormation := by
  intro l
  induction l with
  | nil => intro st; simp
  | cons m tl ih =>
      intro st
      rw [List.foldl_cons, ih, List.countP_cons]
      cases hm : m.formation with
      | none => simp [formStep, hm, truthyFormation]
      | some f =>
          by_cases hf : f = ""
          · simp [formStep, hm, hf, truthyFormation]
          · simp only [formStep, hm, hf, if_neg, not_false_iff, truthyFormation]
            rw [sumVals_alModify_succ]
            simp [hf]
            omega

/-- C8 counterexample: a match whose formation is the empty string (non-null)
is skipped by the Python truthiness test `if formation:`, so the usage counts
sum to 0 while one match has a non-null formation field. -/
theorem C8_counterexample_empty_formation :
    ¬ (((_analyze_team_formations [mkMR (some "") [] [] [] [] MRes.D]).map
          (fun e => e.2.usage_count)).sum =
        [mkMR (some "") [] [] [] [] MRes.D].countP (fun m => m.formation.isSome)) := by
  decide

/-- C8 (amended): for every `MatchRecord` sequence the sum over formations of
`usage_count` equals the number of matches whose formation label is truthy,
i.e. non-null and non-empty (a `None` or `""` formation is skipped). -/
theorem C8_usage_count_sum (ms : List MatchRecord) :
    ((_analyze_team_formations ms).map (fun e => e.2.usage_count)).sum =
      ms.countP truthyFormation := by
  have h := formFold_usage_sum ms ([], [])
  simp only [_analyze_team_formations, List.map_map]
  simpa using h

/-! ### Claim C1: the extractor on documents with missing scores -/

/-- C1: the extractor does return `None` when the team name matches neither
side — even with scores absent — but when the team does match a side and
score data is absent it raises `TypeError` (`None > None`) instead of
returning `None`, so one score-less document aborts the whole batch.  This
contradicts the specified behaviour ("not applicable ... if score data is
absent", "never fatal to the overall batch"); the code, not the claim, is at
fault. -/
theorem C1_extractor_on_missing_scores :
    _extract_team_match_info c1doc "Alpha" = Except.error PyErr.typeError ∧
    _extract_team_match_info c1doc "Gamma" = Except.ok Option.none :=
  ⟨by with_unfolding_all rfl, by with_unfolding_all rfl⟩

/-! ### Claim C2: result classification -/

/-- C2: every extracted `MatchRecord` has `result = W` iff the team score
exceeds the opponent score, `= D` iff they are equal, and `= L` iff it is
lower — exhaustive, mutually exclusive (by trichotomy on the integer
scores), and independent of the home/away flag. -/
theorem C2_result_classification (m : RawMatch) (tn : String) (rec : MatchRecord)
    (h : _extract_team_match_info m tn = Except.ok (some rec)) :
    (rec.result = MRes.W ↔ rec.opponent_score < rec.team_score) ∧
    (rec.result = MRes.D ↔ rec.team_score = rec.opponent_score) ∧
    (rec.result = MRes.L ↔ rec.team_score < rec.opponent_score) := by
  simp only [_extract_team_match_info] at h
  split at h
  case isFalse => simp at h
  case isTrue hcond =>
    split at h
    case h_2 => simp at h
    case h_1 ts os heq1 heq2 =>
      simp only [Except.ok.injEq, Option.some.injEq] at h
      subst h
      simp only [gt_iff_lt]
      refine ⟨?_, ?_, ?_⟩ <;> split_ifs with h1 h2 <;> simp_all <;> omega

/-- C2 witness: the classification facts at a concrete 2-1 home win. -/
theorem C2_result_classification_witness :
    _extract_team_match_info c2doc "Alpha" = Except.ok (some c2rec) ∧
    ((c2rec.result = MRes.W ↔ c2rec.opponent_score < c2rec.team_score) ∧
      (c2rec.result = MRes.D ↔ c2rec.team_score = c2rec.opponent_score) ∧
      (c2rec.result = MRes.L ↔ c2rec.team_score < c2rec.opponent_score)) := by
  have h1 : _extract_team_match_info c2doc "Alpha" = Except.ok (some c2rec) := by
    with_unfolding_all rfl
  exact ⟨h1, C2_result_classification c2doc "Alpha" c2rec h1⟩

/-! ### Claim C5: numeric normalization -/

/-- C5: `_parse_numeric_string` is total over the modelled value domain (the
`try/except ValueError` is the `Option` match inside it, so no error
escapes); numbers are returned as-is, `"57%"` yields `57.0`,
`"12 (4 on target)"` yields `12.0` (the token before the first space), and
`None`, unparsable strings and non-numeric non-string values yield `0.0`. -/
theorem C5_parse_numeric_normalization (n : ℤ) (q : ℚ) :
    _parse_numeric_string (PyVal.int n) = (n : ℚ) ∧
    _parse_numeric_string (PyVal.float q) = q ∧
    _parse_numeric_string PyVal.none = 0 ∧
    _parse_numeric_string (PyVal.str "57%") = 57 ∧
    _parse_numeric_string (PyVal.str "12 (4 on target)") = 12 ∧
    _parse_numeric_string (PyVal.str "abc") = 0 ∧
    _parse_numeric_string PyVal.other = 0 := by
  refine ⟨rfl, rfl, rfl, by with_unfolding_all decide, by with_unfolding_all decide,
    by with_unfolding_all decide, rfl⟩

/-! ### Claim C6: the dotted-path resolver -/

/-- C6 counterexample: on the document `{"a": null}` the path `"a"` resolves
(no segment is absent, out of range, or type-mismatched) and addresses the
value `null`, yet `_safe_get` returns the caller-supplied default `7` instead
of the addressed value. -/
theorem C6_counterexample_null_value :
    resolvePath (JVal.obj [("a", JVal.null)]) ("a".splitOn ".") = some JVal.null ∧
    _safe_get (JVal.obj [("a", JVal.null)]) "a" (JVal.num 7) = JVal.num 7 ∧
    _safe_get (JVal.obj [("a", JVal.null)]) "a" (JVal.num 7) ≠ JVal.null := by
  have hval : _safe_get (JVal.obj [("a", JVal.null)]) "a" (JVal.num 7) = JVal.num 7 := by
    with_unfolding_all rfl
  refine ⟨by with_unfolding_all rfl, hval, ?_⟩
  intro hcontra
  rw [hval] at hcontra
  exact JVal.noConfusion hcontra

/-- C6 (amended): `_safe_get` returns the value addressed by the dotted path,
or the caller-supplied default when any segment is absent, out of range, or
type-mismatched — and additionally when the addressed value itself is `null`
(the final `current if current is not None else default`).  It never raises:
it is a total function of the document and path. -/
theorem C6_path_resolution (doc : JVal) (path : String) (dflt : JVal) :
    _safe_get doc path dflt =
      match resolvePath doc (path.splitOn ".") with
      | some JVal.null => dflt
      | some v => v
      | Option.none => dflt := by
  rw [_safe_get]
  generalize path.splitOn "." = ks
  induction ks generalizing doc with
  | nil => cases doc <;> rfl
  | cons k ks ih =>
      cases doc with
      | null => rfl
      | bool b => rfl
      | num q => rfl
      | str s => rfl
      | obj kvs =>
          simp only [safeGetAux, resolvePath]
          cases alGet? kvs k with
          | none => rfl
          | some v => exact ih v
      | arr xs =>
          simp only [safeGetAux, resolvePath]
          by_cases hd : pyIsDigitStr k
          · simp only [hd, if_true]
            by_cases hlt : natOfDigits k.toList < xs.length
            · simp only [hlt, if_true]
              exact ih _
            · rw [if_neg hlt, if_neg hlt]
          · simp [hd]

/-! ### Claim C3: advanced-statistic means per formation -/

/-- Entries of `performance_by_formation` are `perfEntry` values for
formations with at least one match. -/
theorem alGet?_perf_entries (ms : List MatchRecord) (f : String) (p : PerfOut) :
    ∀ L : List (String × FormationOut),
      alGet? (L.filterMap (fun fd =>
        if (ms.filter (fun m => m.formation == some fd.1)).isEmpty then Option.none
        else some (fd.1, perfEntry ms fd.1 fd.2))) f = some p →
      ∃ d, p = perfEntry ms f d ∧
        (ms.filter (fun m => m.formation == some f)).isEmpty = false := by
  intro L
  induction L with
  | nil => intro h; simp [alGet?] at h
  | cons fd tl ih =>
      intro h
      rw [List.filterMap_cons] at h
      by_cases hc : (ms.filter (fun m => m.formation == some fd.1)).isEmpty
      · rw [if_pos hc] at h
        exact ih h
      · rw [if_neg hc] at h
        simp only [alGet?] at h
        by_cases hf : fd.1 = f
        · rw [if_pos hf] at h
          subst hf
          exact ⟨fd.2, (Option.some.inj h).symm, by simpa using hc⟩
        · rw [if_neg hf] at h
          exact ih h

/-- For a key of the fixed `stat_keys` list, the `avg_stats` dict holds the
zero-filled mean expression. -/
theorem alGet?_avgStatsOf (fm : List MatchRecord) (key : String)
    (hk : key ∈ stat_keys) :
    alGet? (avgStatsOf fm) key =
      some (if (fm.map (fun m => (alGet? m.stats key).getD 0)).isEmpty then 0
            else meanQ (fm.map (fun m => (alGet? m.stats key).getD 0))) := by
  simp only [stat_keys, List.mem_cons, List.not_mem_nil, or_false] at hk
  rcases hk with rfl | rfl | rfl | rfl | rfl | rfl | rfl | rfl <;> rfl

/-- C3 counterexample: two matches in formation 4-4-2, one holding possession
50 and the other lacking the statistic.  The source averages the zero-filled
values over both matches and reports 25; the claimed mean over only the
matches carrying the statistic is 50. -/
theorem C3_counterexample_missing_stat :
    (alGet? (_analyze_formation_performance [c3m1, c3m2]) "4-4-2").map
        (fun p => p.avg_possession) = some 25 ∧
    specFormationStatMean [c3m1, c3m2] "4-4-2" "ball_possession" = 50 ∧
    (25 : ℚ) ≠ 50 := by
  refine ⟨by with_unfolding_all decide, by with_unfolding_all decide, by norm_num⟩

/-- C3 (amended): for every formation entry of `performance_by_formation`,
each of the eight advanced-statistic fields is the mean over exactly the
matches played in that formation, with a match lacking a given statistic
contributing zero to that statistic's mean (not excluded from it). -/
theorem C3_formation_stat_means (ms : List MatchRecord) (f : String) (p : PerfOut)
    (h : alGet? (_analyze_formation_performance ms) f = some p) :
    p.matches_count = (ms.filter (fun m => m.formation == some f)).length ∧
    p.avg_xG = zeroFilledStatMean ms f "expected_goals_xg" ∧
    p.avg_possession = zeroFilledStatMean ms f "ball_possession" ∧
    p.avg_shots = zeroFilledStatMean ms f "total_shots" ∧
    p.avg_shots_on_target = zeroFilledStatMean ms f "shots_on_target" ∧
    p.avg_big_chances = zeroFilledStatMean ms f "big_chances" ∧
    p.avg_accurate_passes = zeroFilledStatMean ms f "accurate_passes" ∧
    p.avg_fouls = zeroFilledStatMean ms f "fouls_committed" ∧
    p.avg_corners = zeroFilledStatMean ms f "corners" := by
  rw [_analyze_formation_performance] at h
  obtain ⟨d, hp, hne⟩ := alGet?_perf_entries ms f p (_analyze_team_formations ms) h
  subst hp
  have key_mean : ∀ key, key ∈ stat_keys →
      (alGet? (avgStatsOf (ms.filter (fun m => m.formation == some f))) key).getD 0 =
        zeroFilledStatMean ms f key := by
    intro key hk
    rw [alGet?_avgStatsOf _ key hk, Option.getD_some]
    have hmapne : (List.map (fun m => (alGet? m.stats key).getD 0)
        (ms.filter (fun m => m.formation == some f))).isEmpty = false := by
      simp only [List.isEmpty_eq_false, ne_eq, List.map_eq_nil_iff]
      simp only [List.isEmpty_eq_false, ne_eq] at hne
      exact hne
    rw [hmapne]
    simp only [Bool.false_eq_true, if_false, zeroFilledStatMean, meanQ, List.length_map]
  refine ⟨rfl, ?_, ?_, ?_, ?_, ?_, ?_, ?_, ?_⟩
  · exact key_mean "expected_goals_xg" (by simp [stat_keys])
  · exact key_mean "ball_possession" (by simp [stat_keys])
  · exact key_mean "total_shots" (by simp [stat_keys])
  · exact key_mean "shots_on_target" (by simp [stat_keys])
  · exact key_mean "big_chances" (by simp [stat_keys])
  · exact key_mean "accurate_passes" (by simp [stat_keys])
  · exact key_mean "fouls_committed" (by simp [stat_keys])
  · exact key_mean "corners" (by simp [stat_keys])

/-- C3 witness: the amended statement instantiated on the concrete 4-4-2
sequence, with the zero-filled possession mean evaluating to 25. -/
theorem C3_formation_stat_means_witness :
    alGet? (_analyze_formation_performance [c3m1, c3m2]) "4-4-2" = some c3perf ∧
    (c3perf.matches_count =
        (([c3m1, c3m2]).filter (fun m => m.formation == some "4-4-2")).length ∧
      c3perf.avg_xG = zeroFilledStatMean [c3m1, c3m2] "4-4-2" "expected_goals_xg" ∧
      c3perf.avg_possession = zeroFilledStatMean [c3m1, c3m2] "4-4-2" "ball_possession" ∧
      c3perf.avg_shots = zeroFilledStatMean [c3m1, c3m2] "4-4-2" "total_shots" ∧
      c3perf.avg_shots_on_target =
        zeroFilledStatMean [c3m1, c3m2] "4-4-2" "shots_on_target" ∧
      c3perf.avg_big_chances = zeroFilledStatMean [c3m1, c3m2] "4-4-2" "big_chances" ∧
      c3perf.avg_accurate_passes =
        zeroFilledStatMean [c3m1, c3m2] "4-4-2" "accurate_passes" ∧
      c3perf.avg_fouls = zeroFilledStatMean [c3m1, c3m2] "4-4-2" "fouls_committed" ∧
      c3perf.avg_corners = zeroFilledStatMean [c3m1, c3m2] "4-4-2" "corners") ∧
    c3perf.avg_possession = 25 := by
  have h1 : alGet? (_analyze_formation_performance [c3m1, c3m2]) "4-4-2" = some c3perf :=
    opt_eq_some_getD _ _ (by decide)
  exact ⟨h1, C3_formation_stat_means [c3m1, c3m2] "4-4-2" c3perf h1,
    by with_unfolding_all decide⟩

/-! ### Claims C9 and C10: the substitution pattern analyzer -/

theorem eventUpd_fields (m : MatchRecord) (pd : RawPlayer) (e : SubEvent) (sa : SubData) :
    (eventUpd m pd e sa).sub_minutes = sa.sub_minutes ++ (minuteOf? e).toList ∧
    (eventUpd m pd e sa).total_rating_as_sub
      = sa.total_rating_as_sub + (if 0 < pd.rating.getD 0 then pd.rating.getD 0 else 0) ∧
    (eventUpd m pd e sa).rating_count_as_sub
      = sa.rating_count_as_sub + (if 0 < pd.rating.getD 0 then 1 else 0) ∧
    (eventUpd m pd e sa).avg_sub_minute = sa.avg_sub_minute ∧
    (eventUpd m pd e sa).avg_rating_as_sub = sa.avg_rating_as_sub := by
  simp only [eventUpd]
  cases hmn : minuteOf? e <;> split <;> simp_all [Option.toList]

theorem eventFold_fields (m : MatchRecord) (pd : RawPlayer) :
    ∀ (l : List SubEvent) (v : SubData),
      (l.foldl (fun v e => eventUpd m pd e v) v).sub_minutes
          = v.sub_minutes ++ l.filterMap minuteOf? ∧
        (l.foldl (fun v e => eventUpd m pd e v) v).total_rating_as_sub
          = v.total_rating_as_sub + (posOf (l.map (fun _ => pd.rating.getD 0))).sum ∧
        (l.foldl (fun v e => eventUpd m pd e v) v).rating_count_as_sub
          = v.rating_count_as_sub + (posOf (l.map (fun _ => pd.rating.getD 0))).length ∧
        (l.foldl (fun v e => eventUpd m pd e v) v).avg_sub_minute = v.avg_sub_minute ∧
        (l.foldl (fun v e => eventUpd m pd e v) v).avg_rating_as_sub
          = v.avg_rating_as_sub := by
  intro l
  induction l with
  | nil => intro v; simp [posOf]
  | cons e tl ih =>
      intro v
      rw [List.foldl_cons]
      obtain ⟨ih1, ih2, ih3, ih4, ih5⟩ := ih (eventUpd m pd e v)
      obtain ⟨hu1, hu2, hu3, hu4, hu5⟩ := eventUpd_fields m pd e v
      rw [List.filterMap_cons, List.map_cons, posOf_cons]
      refine ⟨?_, ?_, ?_, ?_, ?_⟩
      · rw [ih1, hu1]
        cases hmn : minuteOf? e <;> simp [Option.toList]
      · rw [ih2, hu2]
        by_cases h : 0 < pd.rating.getD 0 <;> simp [h] <;> ring
      · rw [ih3, hu3]
        by_cases h : 0 < pd.rating.getD 0 <;> simp [h] <;> omega
      · rw [ih4, hu4]
      · rw [ih5, hu5]

/-- Per-player view of the per-match event fold: only events bearing this
player's id and hitting the bench roster contribute. -/
theorem subEvents_getD (m : MatchRecord) (pid : ℤ) :
    ∀ (evs : List SubEvent) (s : List (ℤ × SubData)),
      (alGet? (evs.foldl (fun st e =>
          match alGet? (rosterMap m.substitutes) e.player_id with
          | some pd => alModify subData0 st e.player_id (eventUpd m pd e)
          | Option.none => st) s) pid).getD subData0 =
        (evs.filter (fun e => decide (e.player_id = pid) &&
            (alGet? (rosterMap m.substitutes) pid).isSome)).foldl
          (fun v e => eventUpd m (rosterPlayer pid m) e v)
          ((alGet? s pid).getD subData0) := by
  intro evs
  induction evs with
  | nil => intro s; simp
  | cons e tl ih =>
      intro s
      rw [List.foldl_cons, ih, List.filter_cons]
      cases hro : alGet? (rosterMap m.substitutes) e.player_id with
      | some pd =>
          by_cases hpe : e.player_id = pid
          · have hro2 : alGet? (rosterMap m.substitutes) pid = some pd := by
              rw [← hpe]; exact hro
            rw [hro2]
            rw [show (decide (e.player_id = pid) &&
                (some pd : Option RawPlayer).isSome) = true from by simp [hpe]]
            rw [if_pos rfl, List.foldl_cons]
            rw [alGet?_alModify, if_pos hpe.symm, hpe, Option.getD_some]
            have hrp : rosterPlayer pid m = pd := by
              rw [rosterPlayer, hro2]; rfl
            rw [hrp]
          · rw [show (decide (e.player_id = pid) &&
                (alGet? (rosterMap m.substitutes) pid).isSome) = false from by simp [hpe]]
            rw [if_neg (by simp)]
            rw [alGet?_alModify, if_neg (fun hh => hpe hh.symm)]
      | none =>
          by_cases hpe : e.player_id = pid
          · have hro2 : alGet? (rosterMap m.substitutes) pid = Option.none := by
              rw [← hpe]; exact hro
            rw [hro2]
            rw [show (decide (e.player_id = pid) &&
                (Option.none : Option RawPlayer).isSome) = false from by simp]
            rw [if_neg (by simp)]
          · rw [show (decide (e.player_id = pid) &&
                (alGet? (rosterMap m.substitutes) pid).isSome) = false from by simp [hpe]]
            rw [if_neg (by simp)]

/-- Per-player view of the whole substitution fold. -/
theorem sub_getD (pid : ℤ) :
    ∀ (l : List MatchRecord) (s : List (ℤ × SubData)),
      (alGet? (l.foldl subMatchStep s) pid).getD subData0 =
        l.foldl (subValStep pid) ((alGet? s pid).getD subData0) := by
  intro l
  induction l with
  | nil => intro s; simp
  | cons m tl ih =>
      intro s
      rw [List.foldl_cons, List.foldl_cons, ih]
      congr 1
      show (alGet? (m.substitutions.foldl (fun st e =>
          match alGet? (rosterMap m.substitutes) e.player_id with
          | some pd => alModify subData0 st e.player_id (eventUpd m pd e)
          | Option.none => st) s) pid).getD subData0 = subValStep pid ((alGet? s pid).getD subData0) m
      rw [subEvents_getD]
      rfl

theorem subFold_fields (pid : ℤ) :
    ∀ (l : List MatchRecord) (v : SubData),
      (l.foldl (subValStep pid) v).sub_minutes = v.sub_minutes ++ minuteSamples pid l ∧
        (l.foldl (subValStep pid) v).total_rating_as_sub
          = v.total_rating_as_sub + (posOf (subRatingSamples pid l)).sum ∧
        (l.foldl (subValStep pid) v).rating_count_as_sub
          = v.rating_count_as_sub + (posOf (subRatingSamples pid l)).length ∧
        (l.foldl (subValStep pid) v).avg_sub_minute = v.avg_sub_minute ∧
        (l.foldl (subValStep pid) v).avg_rating_as_sub = v.avg_rating_as_sub := by
  intro l
  induction l with
  | nil => intro v; simp [minuteSamples, subRatingSamples, posOf]
  | cons m tl ih =>
      intro v
      rw [List.foldl_cons]
      obtain ⟨ih1, ih2, ih3, ih4, ih5⟩ := ih (subValStep pid v m)
      obtain ⟨hs1, hs2, hs3, hs4, hs5⟩ :=
        eventFold_fields m (rosterPlayer pid m) (pidSubEvents pid m) v
      rw [minuteSamples, subRatingSamples, posOf_append]
      refine ⟨?_, ?_, ?_, ?_, ?_⟩
      · rw [ih1]
        simp only [subValStep]
        rw [hs1, List.append_assoc]
      · rw [ih2]
        simp only [subValStep]
        rw [hs2, List.sum_append]
        ring
      · rw [ih3]
        simp only [subValStep]
        rw [hs3, List.length_append]
        omega
      · rw [ih4]
        simp only [subValStep]
        exact hs4
      · rw [ih5]
        simp only [subValStep]
        exact hs5

theorem finalizeSub_fields (d : SubData) :
    (finalizeSub d).sub_minutes = d.sub_minutes ∧
    (finalizeSub d).total_rating_as_sub = d.total_rating_as_sub ∧
    (finalizeSub d).rating_count_as_sub = d.rating_count_as_sub ∧
    (finalizeSub d).avg_sub_minute =
      (if d.sub_minutes.isEmpty then d.avg_sub_minute
       else pyRound 1 (meanI d.sub_minutes)) ∧
    (finalizeSub d).avg_rating_as_sub =
      (if 0 < d.rating_count_as_sub then
        pyRound 2 (d.total_rating_as_sub / (d.rating_count_as_sub : ℚ))
      else d.avg_rating_as_sub) := by
  simp only [finalizeSub]
  split <;> split <;> simp_all

/-- C9: in the substitution pattern analyzer, every produced entry's
`sub_minutes` list holds exactly the parseable entry-minute samples and its
average entry minute is the (rounded) mean of those samples only; the rating
accumulator holds exactly the strictly positive substitute rating samples,
and with zero valid rating samples `avg_rating_as_sub` keeps the sentinel 0
("no rating recorded" in the data model) rather than a computed mean. -/
theorem C9_substitute_averages (ms : List MatchRecord) (pid : ℤ) (sa : SubData)
    (h : alGet? (_analyze_substitution_patterns ms) pid = some sa) :
    sa.sub_minutes = minuteSamples pid ms ∧
    sa.avg_sub_minute = (if (minuteSamples pid ms).isEmpty then 0
      else pyRound 1 (meanI (minuteSamples pid ms))) ∧
    sa.total_rating_as_sub = (posOf (subRatingSamples pid ms)).sum ∧
    sa.rating_count_as_sub = (posOf (subRatingSamples pid ms)).length ∧
    sa.avg_rating_as_sub =
      (if 0 < (posOf (subRatingSamples pid ms)).length then
        pyRound 2 ((posOf (subRatingSamples pid ms)).sum /
          ((posOf (subRatingSamples pid ms)).length : ℚ))
      else 0) := by
  rw [_analyze_substitution_patterns, alGet?_mapVal] at h
  cases hd : alGet? (substitution_analysis_raw ms) pid with
  | none => rw [hd] at h; exact absurd h (by simp)
  | some d =>
      rw [hd] at h
      have hsa : sa = finalizeSub d := by cases h; rfl
      subst hsa
      have hdval : d = ms.foldl (subValStep pid) subData0 := by
        have hh : (alGet? (substitution_analysis_raw ms) pid).getD subData0 =
            ms.foldl (subValStep pid) ((alGet? ([] : List (ℤ × SubData)) pid).getD subData0) :=
          sub_getD pid ms []
        rw [hd] at hh
        simpa using hh
      obtain ⟨f1, f2, f3, f4, f5⟩ := subFold_fields pid ms subData0
      rw [← hdval] at f1 f2 f3 f4 f5
      have hmins : d.sub_minutes = minuteSamples pid ms := by
        rw [f1]; simp [subData0]
      have htr : d.total_rating_as_sub = (posOf (subRatingSamples pid ms)).sum := by
        rw [f2]; simp [subData0]
      have hrc : d.rating_count_as_sub = (posOf (subRatingSamples pid ms)).length := by
        rw [f3]; simp [subData0]
      have hm0 : d.avg_sub_minute = 0 := by rw [f4]; rfl
      have hr0 : d.avg_rating_as_sub = 0 := by rw [f5]; rfl
      obtain ⟨g1, g2, g3, g4, g5⟩ := finalizeSub_fields d
      refine ⟨?_, ?_, ?_, ?_, ?_⟩
      · rw [g1, hmins]
      · rw [g4, hmins, hm0]
      · rw [g2, htr]
      · rw [g3, hrc]
      · rw [g5, htr, hrc, hr0]

/-- C9 witness: one match where player 2 enters in minute 67 with rating 7 —
the entry-minute mean is 67 and the substitute rating mean is 7. -/
theorem C9_substitute_averages_witness :
    alGet? (_analyze_substitution_patterns c9ms) 2 = some c9sa ∧
    (c9sa.sub_minutes = minuteSamples 2 c9ms ∧
      c9sa.avg_sub_minute = (if (minuteSamples 2 c9ms).isEmpty then 0
        else pyRound 1 (meanI (minuteSamples 2 c9ms))) ∧
      c9sa.total_rating_as_sub = (posOf (subRatingSamples 2 c9ms)).sum ∧
      c9sa.rating_count_as_sub = (posOf (subRatingSamples 2 c9ms)).length ∧
      c9sa.avg_rating_as_sub =
        (if 0 < (posOf (subRatingSamples 2 c9ms)).length then
          pyRound 2 ((posOf (subRatingSamples 2 c9ms)).sum /
            ((posOf (subRatingSamples 2 c9ms)).length : ℚ))
        else 0)) ∧
    c9sa.avg_sub_minute = 67 ∧
    c9sa.avg_rating_as_sub = 7 := by
  have h1 : alGet? (_analyze_substitution_patterns c9ms) 2 = some c9sa :=
    opt_eq_some_getD _ _ (by decide)
  exact ⟨h1, C9_substitute_averages c9ms 2 c9sa h1,
    by with_unfolding_all decide, by with_unfolding_all decide⟩

/-- Skipping events that miss the roster map equals folding over the
pre-filtered event list. -/
theorem eventFold_skip_filter (m : MatchRecord) (roster : List (ℤ × RawPlayer)) :
    ∀ (evs : List SubEvent) (s : List (ℤ × SubData)),
      evs.foldl (fun st e =>
        match alGet? roster e.player_id with
        | some pd => alModify subData0 st e.player_id (eventUpd m pd e)
        | Option.none => st) s =
      (evs.filter (fun e => (alGet? roster e.player_id).isSome)).foldl
        (fun st e =>
          match alGet? roster e.player_id with
          | some pd => alModify subData0 st e.player_id (eventUpd m pd e)
          | Option.none => st) s := by
  intro evs
  induction evs with
  | nil => intro s; rfl
  | cons e tl ih =>
      intro s
      rw [List.foldl_cons, List.filter_cons]
      cases hro : alGet? roster e.player_id with
      | some pd =>
          rw [if_pos (show ((some pd : Option RawPlayer).isSome = true) from rfl),
            List.foldl_cons, hro]
          exact ih _
      | none =>
          rw [if_neg (show ¬ ((Option.none : Option RawPlayer).isSome = true) from by simp)]
          rw [show (match Option.none with
            | some pd => alModify subData0 s e.player_id (eventUpd m pd e)
            | Option.none => s) = s from rfl]
          exact ih s

/-- One match step of the analyzer is unchanged by dropping the substitution
events whose player id misses the bench roster. -/
theorem subMatchStep_dropForeign (s : List (ℤ × SubData)) (m : MatchRecord) :
    subMatchStep s (dropForeignSubs m) = subMatchStep s m := by
  show (m.substitutions.filter
      (fun e => m.substitutes.any (fun p => p.id == e.player_id))).foldl
        (fun st e =>
          match alGet? (rosterMap m.substitutes) e.player_id with
          | some pd => alModify subData0 st e.player_id (eventUpd m pd e)
          | Option.none => st) s =
    m.substitutions.foldl
      (fun st e =>
        match alGet? (rosterMap m.substitutes) e.player_id with
        | some pd => alModify subData0 st e.player_id (eventUpd m pd e)
        | Option.none => st) s
  rw [eventFold_skip_filter, eventFold_skip_filter m (rosterMap m.substitutes) m.substitutions]
  congr 1
  rw [List.filter_filter]
  apply List.filter_congr
  intro e _
  rw [← rosterMap_isSome m.substitutes e.player_id]
  exact Bool.and_self _

/-- C10: a substitution event whose player id does not appear in the match's
bench roster is ignored entirely by the substitution pattern analyzer — the
analyzer's output is unchanged when all such events are removed from every
match, so no appearance count, result tally, minute sample, or accumulated
statistic anywhere stems from a non-roster event. -/
theorem C10_nonroster_events_ignored (ms : List MatchRecord) :
    _analyze_substitution_patterns ms =
      _analyze_substitution_patterns (ms.map dropForeignSubs) := by
  rw [_analyze_substitution_patterns, _analyze_substitution_patterns,
    substitution_analysis_raw, substitution_analysis_raw]
  suffices hgen : ∀ (l : List MatchRecord) (s : List (ℤ × SubData)),
      l.foldl subMatchStep s = (l.map dropForeignSubs).foldl subMatchStep s by
    rw [hgen ms []]
  intro l
  induction l with
  | nil => intro s; rfl
  | cons m tl ih =>
      intro s
      rw [List.map_cons, List.foldl_cons, List.foldl_cons, subMatchStep_dropForeign, ih]
